import Mathlib

/-!
Shallow embedding of the user/approval/invitation/audit core of the
Infrastructure Control Panel server (`src/server.ts`).

SQL tables become lists of records inside a `Store`; `AUTOINCREMENT`
primary keys become explicit `next…Id` counters; ISO timestamps become
`Nat` milliseconds; each Express handler becomes a function from the
request parameters and the current store to a `Response` paired with the
store after the handler ran.  `bcrypt.hash` / `bcrypt.compare` and
express-validator's `isEmail` are external library calls and are passed
in as function parameters; the process-wide `PASSWORD_PEPPER` is the
`pepper` parameter.  A `db.transaction` that throws rolls every write of
the transaction back, so the embedding returns the original store in
those branches.
-/

namespace ICP

/-- Row of the `users` table. -/
structure User where
  id : Nat
  username : String
  password : String
  email : String
  role : String
  isApproved : Bool
  createdAt : Nat
  lastLogin : Option Nat
  invitedBy : Option Nat
deriving DecidableEq, Repr

/-- Row of the `user_logs` table. -/
structure UserLog where
  id : Nat
  userId : Nat
  username : String
  action : String
  resource : String
  timestamp : Nat
  details : String
deriving DecidableEq, Repr

/-- Row of the `approval_requests` table. -/
structure ApprovalRequest where
  id : Nat
  userId : Nat
  username : String
  email : String
  requestedRole : String
  requestedAt : Nat
  status : String
  reviewedBy : Option Nat
  reviewedAt : Option Nat
deriving DecidableEq, Repr

/-- Row of the `user_invitations` table. -/
structure Invitation where
  id : Nat
  email : String
  username : String
  role : String
  invitationToken : String
  invitedBy : Nat
  invitedAt : Nat
  expiresAt : Nat
  status : String
deriving DecidableEq, Repr

/-- The SQLite database: the four tables of the account core plus the
`AUTOINCREMENT` counters of their integer primary keys. -/
structure Store where
  users : List User
  userLogs : List UserLog
  approvalRequests : List ApprovalRequest
  invitations : List Invitation
  nextUserId : Nat
  nextLogId : Nat
  nextRequestId : Nat
  nextInvitationId : Nat
deriving DecidableEq, Repr

/-- The public fields of a user as serialized in login responses. -/
structure UserView where
  id : Nat
  username : String
  email : String
  role : String
  isApproved : Bool
deriving DecidableEq, Repr

/-- An HTTP response body as produced by the handlers.  `message := none`
with status 400 is the express-validator `{errors: [...]}` shape; the other
optional fields are present exactly when the corresponding JSON key is. -/
structure Response where
  status : Nat
  message : Option String := none
  user : Option UserView := none
  userId : Option Nat := none
  invitationToken : Option String := none
  expiresAt : Option Nat := none
  invitations : List (Invitation × String) := []
deriving DecidableEq, Repr

/-- Executable model of the express-validator `.trim()` sanitizer (JS
`String.prototype.trim`): strip leading and trailing whitespace. -/
def jsTrim (s : String) : String :=
  String.mk (((s.data.dropWhile Char.isWhitespace).reverse.dropWhile
    Char.isWhitespace).reverse)

/-- `INSERT INTO user_logs (userId, username, action, resource, timestamp,
details)`. -/
def insertLog (st : Store) (userId : Nat) (username action resource : String)
    (timestamp : Nat) (details : String) : Store :=
  { st with
    userLogs := st.userLogs ++
      [{ id := st.nextLogId, userId := userId, username := username,
         action := action, resource := resource, timestamp := timestamp,
         details := details }]
    nextLogId := st.nextLogId + 1 }

/-- Serialize a user row for a response, as `server.ts` does in the login
handler. -/
def viewOf (u : User) : UserView :=
  { id := u.id, username := u.username, email := u.email, role := u.role,
    isApproved := u.isApproved }

/-- `POST /api/login` (`server.ts` 196-257).  `compare` is
`bcrypt.compare`; `auditOk` is whether the `INSERT INTO user_logs` succeeds
(if it throws, the surrounding catch returns 500 — the preceding
`lastLogin` update is not inside a transaction, so it persists). -/
def loginHandler (compare : String → String → Bool) (pepper : String)
    (auditOk : Bool) (now : Nat) (st : Store) (username password : String) :
    Response × Store :=
  let uname := jsTrim username
  if uname = "" ∨ password = "" then
    ({ status := 400 }, st)
  else
    match st.users.find? (fun u => u.username == uname) with
    | none => ({ status := 401, message := some "Invalid credentials" }, st)
    | some user =>
      if ¬ compare (pepper ++ password) user.password then
        ({ status := 401, message := some "Invalid credentials" }, st)
      else if ¬ user.isApproved then
        ({ status := 403, message := some "Account pending approval",
           user := some { viewOf user with isApproved := false } }, st)
      else
        let st1 : Store := { st with
          users := st.users.map (fun u =>
            if u.id == user.id then { u with lastLogin := some now } else u) }
        if auditOk then
          let st2 := insertLog st1 user.id user.username "login" "auth" now
            "User logged in"
          ({ status := 200, user := some (viewOf user) }, st2)
        else
          ({ status := 500, message := some "Server error" }, st1)

/-- `POST /api/register` (`server.ts` 260-316).  `hash` is `bcrypt.hash`,
`isEmail` the express-validator email predicate.  The user insert and the
approval-request insert run in one `db.transaction`. -/
def registerHandler (hash : String → String) (isEmail : String → Bool)
    (pepper : String) (now : Nat) (st : Store)
    (username password email role : String) : Response × Store :=
  let uname := jsTrim username
  if uname = "" ∨ password.length < 6 ∨ ¬ isEmail email ∨
      ¬ (role = "readonly" ∨ role = "write") then
    ({ status := 400 }, st)
  else
    match st.users.find? (fun u => u.username == uname || u.email == email) with
    | some _ =>
      ({ status := 400, message := some "Username or email already exists" }, st)
    | none =>
      let userId := st.nextUserId
      let st1 : Store := { st with
        users := st.users ++
          [{ id := userId, username := uname,
             password := hash (pepper ++ password), email := email,
             role := role, isApproved := false, createdAt := now,
             lastLogin := none, invitedBy := none }]
        nextUserId := st.nextUserId + 1 }
      let st2 : Store := { st1 with
        approvalRequests := st1.approvalRequests ++
          [{ id := st1.nextRequestId, userId := userId, username := uname,
             email := email, requestedRole := role, requestedAt := now,
             status := "pending", reviewedBy := none, reviewedAt := none }]
        nextRequestId := st1.nextRequestId + 1 }
      ({ status := 201,
         message := some "User registered successfully. Awaiting approval.",
         userId := some userId }, st2)

/-- `POST /api/invite-user` (`server.ts` 321-386).  `token` stands for the
`crypto.randomBytes(32).toString("hex")` value, supplied nondeterministically.
The admin lookup selects only `id, role`, so the logged username is the
`"Unknown"` fallback of `admin.username || "Unknown"`. -/
def inviteUserHandler (isEmail : String → Bool) (token : String) (now : Nat)
    (st : Store) (username email role : String) (adminId : Nat) :
    Response × Store :=
  let uname := jsTrim username
  if uname = "" ∨ ¬ isEmail email ∨
      ¬ (role = "readonly" ∨ role = "write" ∨ role = "admin") then
    ({ status := 400 }, st)
  else
    match st.users.find? (fun u => u.id == adminId) with
    | none => ({ status := 404, message := some "Admin not found" }, st)
    | some admin =>
      if admin.role ≠ "admin" then
        ({ status := 403, message := some "Only admins can invite users" }, st)
      else
        match st.users.find? (fun u => u.username == uname || u.email == email) with
        | some _ =>
          ({ status := 400,
             message := some "Username or email already exists" }, st)
        | none =>
          let expiry := now + 7 * 24 * 60 * 60 * 1000
          let st1 : Store := { st with
            invitations := st.invitations ++
              [{ id := st.nextInvitationId, email := email, username := uname,
                 role := role, invitationToken := token, invitedBy := adminId,
                 invitedAt := now, expiresAt := expiry, status := "pending" }]
            nextInvitationId := st.nextInvitationId + 1 }
          let st2 := insertLog st1 adminId "Unknown" "invite_user"
            "user_management" now
            ("Invited user " ++ uname ++ " (" ++ email ++ ") with role " ++ role)
          ({ status := 201,
             message := some "User invitation created successfully",
             invitationToken := some token, expiresAt := some expiry }, st2)

/-- `GET /api/invitations` (`server.ts` 389-405): the join
`SELECT i.*, u.username FROM user_invitations i JOIN users u ON
i.invitedBy = u.id`.  The handler reads nothing from the request — no
caller identity is consulted. -/
def getInvitationsHandler (st : Store) : Response :=
  { status := 200,
    invitations := st.invitations.filterMap (fun i =>
      (st.users.find? (fun u => u.id == i.invitedBy)).map
        (fun u => (i, u.username))) }

/-- `POST /api/accept-invitation` (`server.ts` 408-482).  The uniqueness
branch models the SQLite UNIQUE constraints on `users.username` /
`users.email`: the insert throws, the transaction rolls back, and the
catch returns 500. -/
def acceptInvitationHandler (hash : String → String) (pepper : String)
    (now : Nat) (st : Store) (token password : String) : Response × Store :=
  if token = "" ∨ password.length < 6 then
    ({ status := 400 }, st)
  else
    match st.invitations.find? (fun i =>
        i.invitationToken == token && i.status == "pending") with
    | none =>
      ({ status := 404, message := some "Invalid or expired invitation" }, st)
    | some invitation =>
      if invitation.expiresAt < now then
        ({ status := 400, message := some "Invitation has expired" }, st)
      else if st.users.any (fun u =>
          u.username == invitation.username || u.email == invitation.email) then
        ({ status := 500, message := some "Server error" }, st)
      else
        let userId := st.nextUserId
        let st1 : Store := { st with
          users := st.users ++
            [{ id := userId, username := invitation.username,
               password := hash (pepper ++ password),
               email := invitation.email, role := invitation.role,
               isApproved := true, createdAt := now, lastLogin := none,
               invitedBy := some invitation.invitedBy }]
          nextUserId := st.nextUserId + 1 }
        let st2 : Store := { st1 with
          invitations := st1.invitations.map (fun i =>
            if i.id == invitation.id then { i with status := "accepted" } else i) }
        let st3 := insertLog st2 userId invitation.username "accept_invitation"
          "user_management" now "User accepted invitation and created account"
        ({ status := 201, message := some "Account created successfully",
           userId := some userId }, st3)

/-- `DELETE /api/invitations/:id` (`server.ts` 485-527). -/
def deleteInvitationHandler (now : Nat) (st : Store) (id adminId : Nat) :
    Response × Store :=
  match st.users.find? (fun u => u.id == adminId) with
  | none => ({ status := 404, message := some "Admin not found" }, st)
  | some admin =>
    if admin.role ≠ "admin" then
      ({ status := 403, message := some "Only admins can delete invitations" }, st)
    else
      match st.invitations.find? (fun i => i.id == id) with
      | none => ({ status := 404, message := some "Invitation not found" }, st)
      | some invitation =>
        let st1 : Store := { st with
          invitations := st.invitations.filter (fun i => !(i.id == id)) }
        let st2 := insertLog st1 adminId admin.username "delete_invitation"
          "user_management" now
          ("Deleted invitation for " ++ invitation.username ++ " (" ++
            invitation.email ++ ")")
        ({ status := 200, message := some "Invitation deleted successfully" }, st2)

/-- `POST /api/approval-requests/:id` (`server.ts` 566-626).  Everything
runs in one `db.transaction`; the logging block dereferences
`reviewer.username` and `request.username` without a guard, so a missing
reviewer or request throws there, the transaction rolls back, and the
catch returns 500. -/
def decideHandler (now : Nat) (st : Store) (id : Nat) (status : String)
    (reviewerId : Nat) : Response × Store :=
  if ¬ (status = "approved" ∨ status = "rejected") then
    ({ status := 400 }, st)
  else
    let st1 : Store := { st with
      approvalRequests := st.approvalRequests.map (fun r =>
        if r.id == id then
          { r with status := status, reviewedBy := some reviewerId,
                   reviewedAt := some now }
        else r) }
    let st2 :=
      if status = "approved" then
        match st1.approvalRequests.find? (fun r => r.id == id) with
        | some request =>
          { st1 with users := st1.users.map (fun u =>
              if u.id == request.userId then { u with isApproved := true } else u) }
        | none => st1
      else st1
    match st2.users.find? (fun u => u.id == reviewerId),
        st2.approvalRequests.find? (fun r => r.id == id) with
    | some reviewer, some request =>
      let st3 := insertLog st2 reviewerId reviewer.username
        (if status = "approved" then "approve_user" else "reject_user")
        "user_management" now
        ((if status = "approved" then "Approved" else "Rejected") ++
          " user: " ++ request.username)
      ({ status := 200,
         message := some ("Request " ++
           (if status = "approved" then "approved" else "rejected") ++
           " successfully") }, st3)
    | _, _ => ({ status := 500, message := some "Server error" }, st)

/-- `POST /api/log-action` (`server.ts` 647-675). -/
def logActionHandler (now : Nat) (st : Store) (userId : Nat)
    (username action resource : String) (details : Option String) :
    Response × Store :=
  let st1 := insertLog st userId username action resource now (details.getD "")
  ({ status := 201, message := some "Action logged successfully" }, st1)

/-- `DELETE /api/users/:id` (`server.ts` 680-746).  The cascading deletes
of `user_logs`, `approval_requests` and the user row run in one
transaction (the `user_preferences` table is never written by any handler
and is not modelled). -/
def deleteUserHandler (now : Nat) (st : Store) (id adminId : Nat) :
    Response × Store :=
  match st.users.find? (fun u => u.id == adminId) with
  | none => ({ status := 404, message := some "Admin not found" }, st)
  | some admin =>
    if admin.role ≠ "admin" then
      ({ status := 403, message := some "Only admins can delete users" }, st)
    else
      match st.users.find? (fun u => u.id == id) with
      | none => ({ status := 404, message := some "User not found" }, st)
      | some user =>
        if user.username = "admin" then
          ({ status := 403,
             message := some "Cannot delete the default admin user" }, st)
        else if id = adminId then
          ({ status := 403, message := some "Cannot delete your own account" }, st)
        else
          let st1 : Store := { st with
            userLogs := st.userLogs.filter (fun l => !(l.userId == id))
            approvalRequests := st.approvalRequests.filter (fun r => !(r.userId == id))
            users := st.users.filter (fun u => !(u.id == id)) }
          let st2 := insertLog st1 adminId admin.username "delete_user"
            "user_management" now
            ("Deleted user " ++ user.username ++ " (ID: " ++ toString id ++
              ", Role: " ++ user.role ++ ")")
          ({ status := 200, message := some "User deleted successfully" }, st2)

/-- The bootstrap (`server.ts` 146-156): a fresh database in which the
default `admin` account has just been inserted. -/
def initStore (hash : String → String) (pepper : String) (bootNow : Nat) :
    Store :=
  { users := [{ id := 1, username := "admin",
                password := hash (pepper ++ "admin"),
                email := "admin@example.com", role := "admin",
                isApproved := true, createdAt := bootNow, lastLogin := none,
                invitedBy := none }]
    userLogs := [], approvalRequests := [], invitations := []
    nextUserId := 2, nextLogId := 1, nextRequestId := 1, nextInvitationId := 1 }

/-- One state-changing request handled by the server, with arbitrary
request parameters and arbitrary external-library behaviour. -/
inductive Step : Store → Store → Prop
  | login (compare : String → String → Bool) (pepper : String) (auditOk : Bool)
      (now : Nat) (username password : String) (st : Store) :
      Step st (loginHandler compare pepper auditOk now st username password).2
  | register (hash : String → String) (isEmail : String → Bool) (pepper : String)
      (now : Nat) (username password email role : String) (st : Store) :
      Step st (registerHandler hash isEmail pepper now st username password email role).2
  | invite (isEmail : String → Bool) (token : String) (now : Nat)
      (username email role : String) (adminId : Nat) (st : Store) :
      Step st (inviteUserHandler isEmail token now st username email role adminId).2
  | accept (hash : String → String) (pepper : String) (now : Nat)
      (token password : String) (st : Store) :
      Step st (acceptInvitationHandler hash pepper now st token password).2
  | deleteInvitation (now : Nat) (id adminId : Nat) (st : Store) :
      Step st (deleteInvitationHandler now st id adminId).2
  | decide (now : Nat) (id : Nat) (status : String) (reviewerId : Nat) (st : Store) :
      Step st (decideHandler now st id status reviewerId).2
  | logAction (now : Nat) (userId : Nat) (username action resource : String)
      (details : Option String) (st : Store) :
      Step st (logActionHandler now st userId username action resource details).2
  | deleteUser (now : Nat) (id adminId : Nat) (st : Store) :
      Step st (deleteUserHandler now st id adminId).2

/-- Stores reachable from the bootstrap state by any sequence of requests. -/
def Reachable (hash : String → String) (pepper : String) (bootNow : Nat)
    (st : Store) : Prop :=
  Relation.ReflTransGen Step (initStore hash pepper bootNow) st

/-! Concrete instantiations of the external-library parameters and small
concrete stores, used to evaluate the handlers on closed inputs. -/

/-- A concrete stand-in for `bcrypt.hash`. -/
def exHash (s : String) : String := String.append "h:" s

/-- A concrete stand-in for `bcrypt.compare`: the stored hash matches
exactly the hash of the offered plaintext. -/
def exCompare (plain stored : String) : Bool := stored == String.append "h:" plain

def exAdminUser : User :=
  { id := 1, username := "admin", password := "h:admin",
    email := "admin@example.com", role := "admin", isApproved := true,
    createdAt := 0, lastLogin := none, invitedBy := none }

def exAlice : User :=
  { id := 2, username := "alice", password := "h:pw123456",
    email := "alice@example.com", role := "write", isApproved := true,
    createdAt := 0, lastLogin := none, invitedBy := none }

/-- A store holding the bootstrap admin and one approved user. -/
def exStore1 : Store :=
  { users := [exAdminUser, exAlice], userLogs := [], approvalRequests := [],
    invitations := [], nextUserId := 3, nextLogId := 1, nextRequestId := 1,
    nextInvitationId := 1 }

def exCarol : User :=
  { id := 2, username := "carol", password := "h:carolpw",
    email := "carol@example.com", role := "write", isApproved := true,
    createdAt := 0, lastLogin := none, invitedBy := none }

def exDave : User :=
  { id := 3, username := "dave", password := "h:davepw123",
    email := "dave@example.com", role := "readonly", isApproved := false,
    createdAt := 0, lastLogin := none, invitedBy := none }

def exDaveRequest : ApprovalRequest :=
  { id := 1, userId := 3, username := "dave", email := "dave@example.com",
    requestedRole := "readonly", requestedAt := 0, status := "pending",
    reviewedBy := none, reviewedAt := none }

/-- A store with the admin, a non-admin reviewer `carol`, and an
unapproved user `dave` with one pending approval request. -/
def exStoreC1 : Store :=
  { users := [exAdminUser, exCarol, exDave], userLogs := [],
    approvalRequests := [exDaveRequest], invitations := [], nextUserId := 4,
    nextLogId := 1, nextRequestId := 2, nextInvitationId := 1 }

def exInvitation : Invitation :=
  { id := 1, email := "erin@example.com", username := "erin", role := "write",
    invitationToken := "tok123", invitedBy := 1, invitedAt := 10,
    expiresAt := 100, status := "pending" }

/-- A store with the admin and one pending invitation for `erin`
expiring at time 100. -/
def exStoreInv : Store :=
  { users := [exAdminUser], userLogs := [], approvalRequests := [],
    invitations := [exInvitation], nextUserId := 2, nextLogId := 1,
    nextRequestId := 1, nextInvitationId := 2 }

/-- Number of accounts named `admin`. -/
def adminCount (users : List User) : Nat :=
  users.countP (fun u => u.username == "admin")

/-- Well-formedness of the `users` table as SQLite maintains it: every id
is below the `AUTOINCREMENT` counter, ids are pairwise distinct (primary
key), and exactly one account is named `admin`. -/
def usersOK (users : List User) (nextId : Nat) : Prop :=
  (∀ u ∈ users, u.id < nextId) ∧
  users.Pairwise (fun a b => a.id ≠ b.id) ∧
  adminCount users = 1

/-- C4.  Login with a nonexistent username and login with an existing
username but a wrong password produce the identical error response — the
same 401 status and the same `"Invalid credentials"` body — and both leave
the store untouched. -/
theorem login_no_username_enumeration
    (compare : String → String → Bool) (pepper : String) (auditOk : Bool)
    (now : Nat) (st : Store) (u1 p1 u2 p2 : String) (user : User)
    (hn1 : jsTrim u1 ≠ "") (hp1 : p1 ≠ "")
    (hn2 : jsTrim u2 ≠ "") (hp2 : p2 ≠ "")
    (h1 : st.users.find? (fun u => u.username == jsTrim u1) = none)
    (h2 : st.users.find? (fun u => u.username == jsTrim u2) = some user)
    (h3 : compare (pepper ++ p2) user.password = false) :
    loginHandler compare pepper auditOk now st u1 p1 =
      ({ status := 401, message := some "Invalid credentials" }, st) ∧
    loginHandler compare pepper auditOk now st u2 p2 =
      ({ status := 401, message := some "Invalid credentials" }, st) := by
  have hv1 : ¬ (jsTrim u1 = "" ∨ p1 = "") := by
    intro h; rcases h with h | h
    · exact hn1 h
    · exact hp1 h
  have hv2 : ¬ (jsTrim u2 = "" ∨ p2 = "") := by
    intro h; rcases h with h | h
    · exact hn2 h
    · exact hp2 h
  constructor
  · simp only [loginHandler, if_neg hv1, h1]
  · simp only [loginHandler, if_neg hv2, h2, h3]
    simp

/-- C4 witness: in `exStore1`, the nonexistent user `bob` and the existing
user `alice` with a wrong password get the very same 401 response. -/
theorem login_no_username_enumeration_witness :
    loginHandler exCompare "" true 5 exStore1 "bob" "x" =
      ({ status := 401, message := some "Invalid credentials" }, exStore1) ∧
    loginHandler exCompare "" true 5 exStore1 "alice" "wrongpw" =
      ({ status := 401, message := some "Invalid credentials" }, exStore1) :=
  login_no_username_enumeration exCompare "" true 5 exStore1 "bob" "x"
    "alice" "wrongpw" exAlice (by decide) (by decide) (by decide) (by decide)
    (by decide) (by decide) (by decide)

/-- C10.  A login attempt answered with 401 (bad credentials) or 403
(unapproved account) leaves the store completely unchanged: no `lastLogin`
update and no audit-log row. -/
theorem login_failure_leaves_store_unchanged
    (compare : String → String → Bool) (pepper : String) (auditOk : Bool)
    (now : Nat) (st : Store) (username password : String)
    (h : (loginHandler compare pepper auditOk now st username password).1.status = 401 ∨
         (loginHandler compare pepper auditOk now st username password).1.status = 403) :
    (loginHandler compare pepper auditOk now st username password).2 = st := by
  by_cases hv : jsTrim username = "" ∨ password = ""
  · simp [loginHandler, if_pos hv]
  · cases hfind : st.users.find? (fun u => u.username == jsTrim username) with
    | none => simp [loginHandler, if_neg hv, hfind]
    | some user =>
      cases hc : compare (pepper ++ password) user.password with
      | false => simp [loginHandler, if_neg hv, hfind, hc]
      | true =>
        cases ha : user.isApproved with
        | false => simp [loginHandler, if_neg hv, hfind, hc, ha]
        | true =>
          exfalso
          cases auditOk <;>
            simp [loginHandler, if_neg hv, hfind, hc, ha] at h


/-- C10 witness: a wrong-password login against `exStore1` answers 401
and leaves the store exactly as it was. -/
theorem login_failure_leaves_store_unchanged_witness :
    ((loginHandler exCompare "" true 5 exStore1 "alice" "badpw1").1.status = 401 ∨
     (loginHandler exCompare "" true 5 exStore1 "alice" "badpw1").1.status = 403) ∧
    (loginHandler exCompare "" true 5 exStore1 "alice" "badpw1").2 = exStore1 :=
  ⟨Or.inl (by decide),
   login_failure_leaves_store_unchanged exCompare "" true 5 exStore1 "alice"
     "badpw1" (Or.inl (by decide))⟩

/-- C3 counterexample: with the correct password for the approved user
`alice`, the login succeeds (200) when the audit-log insert succeeds, but
returns 500 — not the success result — when the audit-log insert fails:
the failure is not swallowed. -/
theorem login_audit_failure_not_swallowed :
    (loginHandler exCompare "" true 5 exStore1 "alice" "pw123456").1.status = 200 ∧
    (loginHandler exCompare "" false 5 exStore1 "alice" "pw123456").1.status = 500 := by
  decide

/-- C3 amended: in login, a failure of the audit-log insert makes the
operation fail with 500 "Server error"; the `lastLogin` update, issued
before the insert and outside any transaction, is retained, and no log row
is appended. -/
theorem login_audit_failure_returns_500
    (compare : String → String → Bool) (pepper : String) (now : Nat)
    (st : Store) (username password : String) (user : User)
    (hn : jsTrim username ≠ "") (hp : password ≠ "")
    (hfind : st.users.find? (fun u => u.username == jsTrim username) = some user)
    (hc : compare (pepper ++ password) user.password = true)
    (ha : user.isApproved = true) :
    loginHandler compare pepper false now st username password =
      ({ status := 500, message := some "Server error" },
       { st with users := st.users.map (fun u =>
           if u.id == user.id then { u with lastLogin := some now } else u) }) := by
  have hv : ¬ (jsTrim username = "" ∨ password = "") := by
    intro h; rcases h with h | h
    · exact hn h
    · exact hp h
  simp only [loginHandler, if_neg hv, hfind, hc, ha]
  simp

/-- C3 amended witness: the concrete audit-failing login for `alice`. -/
theorem login_audit_failure_returns_500_witness :
    loginHandler exCompare "" false 5 exStore1 "alice" "pw123456" =
      ({ status := 500, message := some "Server error" },
       { exStore1 with users := exStore1.users.map (fun u =>
           if u.id == exAlice.id then { u with lastLogin := some 5 } else u) }) :=
  login_audit_failure_returns_500 exCompare "" 5 exStore1 "alice" "pw123456"
    exAlice (by decide) (by decide) (by decide) (by decide) (by decide)

/-- C8.  A self-registration with valid inputs and a fresh username and
email creates, in one transaction, an account with `isApproved = false`
and a single pending approval request carrying the requested role; the
response is 201 with the new account id. -/
theorem register_creates_unapproved_account_and_one_request
    (hash : String → String) (isEmail : String → Bool) (pepper : String)
    (now : Nat) (st : Store) (username password email role : String)
    (hn : jsTrim username ≠ "") (hp : 6 ≤ password.length)
    (he : isEmail email = true) (hr : role = "readonly" ∨ role = "write")
    (hfresh : st.users.find? (fun u =>
      u.username == jsTrim username || u.email == email) = none)
    (hreq : ∀ r ∈ st.approvalRequests, r.userId ≠ st.nextUserId) :
    registerHandler hash isEmail pepper now st username password email role =
      ({ status := 201,
         message := some "User registered successfully. Awaiting approval.",
         userId := some st.nextUserId },
       { st with
         users := st.users ++
           [{ id := st.nextUserId, username := jsTrim username,
              password := hash (pepper ++ password), email := email,
              role := role, isApproved := false, createdAt := now,
              lastLogin := none, invitedBy := none }]
         approvalRequests := st.approvalRequests ++
           [{ id := st.nextRequestId, userId := st.nextUserId,
              username := jsTrim username, email := email,
              requestedRole := role, requestedAt := now, status := "pending",
              reviewedBy := none, reviewedAt := none }]
         nextUserId := st.nextUserId + 1
         nextRequestId := st.nextRequestId + 1 }) ∧
    ((registerHandler hash isEmail pepper now st username password email
        role).2.approvalRequests.countP
      (fun r => r.userId == st.nextUserId)) = 1 := by
  have hv : ¬ (jsTrim username = "" ∨ password.length < 6 ∨
      ¬ isEmail email ∨ ¬ (role = "readonly" ∨ role = "write")) := by
    push_neg
    refine ⟨hn, by omega, by simp [he], hr⟩
  constructor
  · simp only [registerHandler, if_neg hv, hfresh]
  · simp only [registerHandler, if_neg hv, hfresh]
    rw [List.countP_append]
    have h0 : st.approvalRequests.countP (fun r => r.userId == st.nextUserId) = 0 := by
      rw [List.countP_eq_zero]
      intro r hrmem
      simpa using hreq r hrmem
    simp [h0]

/-- C8 witness: registering `frank` against `exStore1`. -/
theorem register_creates_unapproved_account_witness :
    (registerHandler exHash (fun e => e == "frank@example.com") "" 7 exStore1
        "frank" "secret1" "frank@example.com" "readonly").1.status = 201 ∧
    ((registerHandler exHash (fun e => e == "frank@example.com") "" 7 exStore1
        "frank" "secret1" "frank@example.com" "readonly").2.approvalRequests.countP
      (fun r => r.userId == exStore1.nextUserId)) = 1 :=
  have h := register_creates_unapproved_account_and_one_request exHash
    (fun e => e == "frank@example.com") "" 7 exStore1 "frank" "secret1"
    "frank@example.com" "readonly" (by decide) (by decide) (by decide)
    (Or.inl rfl) (by decide) (by decide)
  ⟨by rw [h.1], h.2⟩

/-- Finding by key commutes with a key-preserving map. -/
theorem find?_key_map {α : Type} (key : α → Nat) (f : α → α)
    (hf : ∀ a, key (f a) = key a) (l : List α) (i : Nat) :
    (l.map f).find? (fun a => key a == i) = (l.find? (fun a => key a == i)).map f := by
  have hp : ((fun a => key a == i) ∘ f) = fun a => key a == i := by
    funext a
    simp [Function.comp, hf a]
  rw [List.find?_map, hp]

/-- The review-stamping update of `decideHandler` preserves request ids. -/
theorem decideStamp_id (now : Nat) (id reviewerId : Nat) (status : String)
    (r : ApprovalRequest) :
    ((if r.id == id then
        { r with status := status, reviewedBy := some reviewerId,
                 reviewedAt := some now }
      else r) : ApprovalRequest).id = r.id := by
  split <;> rfl

/-- The approval-flag update of `decideHandler` preserves user ids. -/
theorem approveUpd_id (uid : Nat) (u : User) :
    ((if u.id == uid then { u with isApproved := true } else u) : User).id = u.id := by
  split <;> rfl

/-- C1 counterexample: in `exStoreC1`, the reviewer `carol` (id 2) holds
role `write`, not `admin`, yet the decision call succeeds with 200 and
flips dave's approval flag — no Forbidden; and deciding a nonexistent
request id 99 answers 500 Server error, not 404 NotFound. -/
theorem decide_claim_counterexample :
    ((exStoreC1.users.find? (fun u => u.id == 2)).map (fun u => u.role) =
      some "write") ∧
    (decideHandler 9 exStoreC1 1 "approved" 2).1.status = 200 ∧
    ((decideHandler 9 exStoreC1 1 "approved" 2).2.users.countP
      (fun u => u.id == 3 && u.isApproved)) = 1 ∧
    (decideHandler 9 exStoreC1 99 "approved" 2).1.status = 500 := by
  decide

/-- C1 amended: the decision endpoint performs no admin-role check — any
existing reviewer makes it proceed to 200 on an existing request — and
when no approval request with the given id exists it fails with 500
Server error (the unguarded log lookup throws and the transaction rolls
back), leaving the store, in particular every approval flag, unchanged. -/
theorem decide_missing_request_500_and_no_role_check
    (now : Nat) (st : Store) (id : Nat) (status : String) (reviewerId : Nat)
    (hs : status = "approved" ∨ status = "rejected") :
    (st.approvalRequests.find? (fun r => r.id == id) = none →
      decideHandler now st id status reviewerId =
        ({ status := 500, message := some "Server error" }, st)) ∧
    (∀ reviewer, st.users.find? (fun u => u.id == reviewerId) = some reviewer →
      ∀ request, st.approvalRequests.find? (fun r => r.id == id) = some request →
        (decideHandler now st id status reviewerId).1.status = 200) := by
  constructor
  · intro hnone
    have hmapnone : (st.approvalRequests.map (fun r =>
        if r.id == id then
          { r with status := status, reviewedBy := some reviewerId,
                   reviewedAt := some now }
        else r)).find? (fun r => r.id == id) = none := by
      rw [find?_key_map ApprovalRequest.id _
        (decideStamp_id now id reviewerId status), hnone]
      rfl
    rcases hs with rfl | rfl <;>
      simp only [decideHandler, hmapnone] <;>
      cases hu : st.users.find? (fun u => u.id == reviewerId) <;>
        simp only [hu, hmapnone, true_or, or_true, not_true, if_true, if_false,
          ite_true, ite_false, String.reduceEq, reduceIte]
  · intro reviewer hrev request hreq
    have hmapsome : (st.approvalRequests.map (fun r =>
        if r.id == id then
          { r with status := status, reviewedBy := some reviewerId,
                   reviewedAt := some now }
        else r)).find? (fun r => r.id == id) =
        some (if request.id == id then
          { request with status := status, reviewedBy := some reviewerId,
                         reviewedAt := some now }
        else request) := by
      rw [find?_key_map ApprovalRequest.id _
        (decideStamp_id now id reviewerId status), hreq]
      rfl
    rcases hs with rfl | rfl
    · have hrevmap : (st.users.map (fun u =>
          if u.id == (if request.id == id then
            { request with status := "approved", reviewedBy := some reviewerId,
                           reviewedAt := some now }
          else request).userId then { u with isApproved := true } else u)).find?
          (fun u => u.id == reviewerId) =
          some (if reviewer.id == (if request.id == id then
            { request with status := "approved", reviewedBy := some reviewerId,
                           reviewedAt := some now }
          else request).userId then { reviewer with isApproved := true }
          else reviewer) := by
        rw [find?_key_map User.id _ (approveUpd_id _), hrev]
        rfl
      simp only [decideHandler, hmapsome, hrevmap, true_or, or_true, not_true,
        if_true, if_false, ite_true, ite_false, String.reduceEq, reduceIte]
    · simp only [decideHandler, hmapsome, hrev, true_or, or_true, not_true,
        if_true, if_false, ite_true, ite_false, String.reduceEq, reduceIte]

/-- C1 amended witness: against `exStoreC1`, the non-admin reviewer
`carol` gets 200 on the existing request 1, and request id 99 yields 500
with the store unchanged. -/
theorem decide_missing_request_500_witness :
    (decideHandler 9 exStoreC1 99 "approved" 2 =
      ({ status := 500, message := some "Server error" }, exStoreC1)) ∧
    (decideHandler 9 exStoreC1 1 "approved" 2).1.status = 200 :=
  have h99 := decide_missing_request_500_and_no_role_check 9 exStoreC1 99
    "approved" 2 (Or.inl rfl)
  have h1 := decide_missing_request_500_and_no_role_check 9 exStoreC1 1
    "approved" 2 (Or.inl rfl)
  ⟨h99.1 (by decide), h1.2 exCarol (by decide) exDaveRequest (by decide)⟩

/-- C7.  A successful "approved" decision rewrites the users table by
setting `isApproved` on exactly the account the request references,
leaving every other account (and every other field of the target) as it
was. -/
theorem approve_flips_exactly_target
    (now : Nat) (st : Store) (id reviewerId : Nat)
    (request : ApprovalRequest) (reviewer : User)
    (hreq : st.approvalRequests.find? (fun r => r.id == id) = some request)
    (hrev : st.users.find? (fun u => u.id == reviewerId) = some reviewer) :
    (decideHandler now st id "approved" reviewerId).2.users =
      st.users.map (fun u =>
        if u.id == request.userId then { u with isApproved := true } else u) := by
  have hid : request.id = id := by
    have h := List.find?_some hreq
    simpa using h
  have hmapsome : (st.approvalRequests.map (fun r =>
      if r.id == id then
        { r with status := "approved", reviewedBy := some reviewerId,
                 reviewedAt := some now }
      else r)).find? (fun r => r.id == id) =
      some { request with status := "approved", reviewedBy := some reviewerId,
                          reviewedAt := some now } := by
    rw [find?_key_map ApprovalRequest.id _
      (decideStamp_id now id reviewerId "approved"), hreq]
    simp [hid]
  have hrevmap : (st.users.map (fun u =>
      if u.id == request.userId then { u with isApproved := true } else u)).find?
      (fun u => u.id == reviewerId) =
      some (if reviewer.id == request.userId then
        { reviewer with isApproved := true } else reviewer) := by
    rw [find?_key_map User.id _ (approveUpd_id _), hrev]
    rfl
  simp only [decideHandler, insertLog, hmapsome, hrevmap, true_or, or_true,
    not_true, if_true, if_false, ite_true, ite_false, String.reduceEq,
    reduceIte]

/-- C7 witness: the admin approving dave's request in `exStoreC1` flips
exactly dave's flag. -/
theorem approve_flips_exactly_target_witness :
    (decideHandler 9 exStoreC1 1 "approved" 1).2.users =
      exStoreC1.users.map (fun u =>
        if u.id == exDaveRequest.userId then { u with isApproved := true }
        else u) :=
  approve_flips_exactly_target 9 exStoreC1 1 1 exDaveRequest exAdminUser
    (by decide) (by decide)

/-- C6.  An invitation whose stored status is still "pending" but whose
`expiresAt` lies strictly before the current time is rejected with 400
"Invitation has expired", and no account is created: expiry is checked
against the live clock, not the stored status. -/
theorem accept_expired_invitation_rejected
    (hash : String → String) (pepper : String) (now : Nat) (st : Store)
    (token password : String) (inv : Invitation)
    (ht : token ≠ "") (hp : 6 ≤ password.length)
    (hfind : st.invitations.find? (fun i =>
      i.invitationToken == token && i.status == "pending") = some inv)
    (hexp : inv.expiresAt < now) :
    acceptInvitationHandler hash pepper now st token password =
      ({ status := 400, message := some "Invitation has expired" }, st) := by
  have hv : ¬ (token = "" ∨ password.length < 6) := by
    push_neg
    exact ⟨ht, by omega⟩
  simp only [acceptInvitationHandler, if_neg hv, hfind]
  rw [if_pos hexp]

/-- C6 witness: accepting erin's pending invitation at time 101, past its
expiry 100. -/
theorem accept_expired_invitation_rejected_witness :
    acceptInvitationHandler exHash "" 101 exStoreInv "tok123" "secret1" =
      ({ status := 400, message := some "Invitation has expired" }, exStoreInv) :=
  accept_expired_invitation_rejected exHash "" 101 exStoreInv "tok123"
    "secret1" exInvitation (by decide) (by decide) (by decide) (by decide)

/-- C5.  When the token identifies at most one invitation (as its
cryptographic randomness guarantees), a second accept with the same token
after a successful accept fails with 404 "Invalid or expired invitation"
and changes nothing — in particular it creates no account. -/
theorem accept_invitation_single_use
    (hash : String → String) (pepper : String) (now now2 : Nat) (st : Store)
    (token password password2 : String)
    (huniq : ∀ i ∈ st.invitations, ∀ j ∈ st.invitations,
      i.invitationToken = token → j.invitationToken = token → i = j)
    (hp2 : 6 ≤ password2.length)
    (hsucc : (acceptInvitationHandler hash pepper now st token password).1.status = 201) :
    acceptInvitationHandler hash pepper now2
        (acceptInvitationHandler hash pepper now st token password).2 token password2 =
      ({ status := 404, message := some "Invalid or expired invitation" },
       (acceptInvitationHandler hash pepper now st token password).2) := by
  by_cases hv : token = "" ∨ password.length < 6
  · exfalso
    simp [acceptInvitationHandler, if_pos hv] at hsucc
  · have hv2 : ¬ (token = "" ∨ password2.length < 6) := by
      push_neg at hv ⊢
      exact ⟨hv.1, by omega⟩
    cases hfind : st.invitations.find? (fun i =>
        i.invitationToken == token && i.status == "pending") with
    | none =>
      exfalso
      simp [acceptInvitationHandler, if_neg hv, hfind] at hsucc
    | some inv =>
      have hmem : inv ∈ st.invitations := List.mem_of_find?_eq_some hfind
      have hprop : inv.invitationToken = token := by
        have h := List.find?_some hfind
        simp at h
        exact h.1
      by_cases hexp : inv.expiresAt < now
      · exfalso
        simp only [acceptInvitationHandler, if_neg hv, hfind] at hsucc
        rw [if_pos hexp] at hsucc
        simp at hsucc
      · cases hconf : st.users.any (fun u =>
            u.username == inv.username || u.email == inv.email) with
        | true =>
          exfalso
          simp only [acceptInvitationHandler, if_neg hv, hfind] at hsucc
          rw [if_neg hexp] at hsucc
          simp [hconf] at hsucc
        | false =>
          have hnone2 : (st.invitations.map (fun i =>
              if i.id == inv.id then { i with status := "accepted" } else i)).find?
              (fun i => i.invitationToken == token && i.status == "pending") = none := by
            rw [List.find?_eq_none]
            intro a ha
            rcases List.mem_map.mp ha with ⟨i, hi, rfl⟩
            by_cases hid : i.id == inv.id
            · simp [hid]
            · simp only [hid, if_false, ite_false, Bool.and_eq_true, beq_iff_eq]
              rintro ⟨htok, hpend⟩
              exact absurd (congrArg Invitation.id (huniq i hi inv hmem htok hprop))
                (by simpa using hid)
          have hst : (acceptInvitationHandler hash pepper now st token password).2 =
              insertLog
                { st with
                  users := st.users ++
                    [{ id := st.nextUserId, username := inv.username,
                       password := hash (pepper ++ password), email := inv.email,
                       role := inv.role, isApproved := true, createdAt := now,
                       lastLogin := none, invitedBy := some inv.invitedBy }]
                  nextUserId := st.nextUserId + 1
                  invitations := st.invitations.map (fun i =>
                    if i.id == inv.id then { i with status := "accepted" } else i) }
                st.nextUserId inv.username "accept_invitation" "user_management"
                now "User accepted invitation and created account" := by
            simp only [acceptInvitationHandler, if_neg hv, hfind]
            rw [if_neg hexp]
            simp [hconf]
          rw [hst]
          simp only [acceptInvitationHandler, if_neg hv2, insertLog, hnone2]

/-- C5 witness: accepting `tok123` twice against `exStoreInv`; the second
call gets 404 and leaves the post-first-accept store untouched. -/
theorem accept_invitation_single_use_witness :
    acceptInvitationHandler exHash "" 60
        (acceptInvitationHandler exHash "" 50 exStoreInv "tok123" "secret1").2
        "tok123" "other66" =
      ({ status := 404, message := some "Invalid or expired invitation" },
       (acceptInvitationHandler exHash "" 50 exStoreInv "tok123" "secret1").2) :=
  accept_invitation_single_use exHash "" 50 60 exStoreInv "tok123" "secret1"
    "other66" (by decide) (by decide) (by decide)

/-- C2 (code bug).  The `GET /api/invitations` handler reads no caller
identity whatsoever: for every store it answers 200, and concretely it
hands the full invitation join to the caller — no non-admin request is
ever refused, although the route is documented "(admin only)" and the
client-side store gates it. -/
theorem getInvitations_never_refuses :
    (∀ st : Store, (getInvitationsHandler st).status = 200) ∧
    (getInvitationsHandler exStoreInv).invitations = [(exInvitation, "admin")] :=
  ⟨fun _ => rfl, by decide⟩

theorem adminCount_map (f : User → User)
    (hname : ∀ u, (f u).username = u.username) (l : List User) :
    adminCount (l.map f) = adminCount l := by
  unfold adminCount
  rw [List.countP_map]
  congr 1
  funext u
  simp [Function.comp, hname u]

theorem usersOK_map (f : User → User) (hid : ∀ u, (f u).id = u.id)
    (hname : ∀ u, (f u).username = u.username) (l : List User) (n : Nat)
    (h : usersOK l n) : usersOK (l.map f) n := by
  obtain ⟨hb, hp, hc⟩ := h
  refine ⟨?_, ?_, ?_⟩
  · intro u hu
    rcases List.mem_map.mp hu with ⟨v, hv, rfl⟩
    rw [hid v]
    exact hb v hv
  · exact List.Pairwise.map f (fun a b hab => by rw [hid a, hid b]; exact hab) hp
  · rw [adminCount_map f hname]
    exact hc

theorem usersOK_append (l : List User) (n : Nat) (x : User)
    (h : usersOK l n) (hx : x.id = n) (hname : x.username ≠ "admin") :
    usersOK (l ++ [x]) (n + 1) := by
  obtain ⟨hb, hp, hc⟩ := h
  refine ⟨?_, ?_, ?_⟩
  · intro u hu
    rcases List.mem_append.mp hu with hu | hu
    · exact Nat.lt_succ_of_lt (hb u hu)
    · simp at hu
      subst hu
      omega
  · rw [List.pairwise_append]
    refine ⟨hp, List.pairwise_singleton _ _, ?_⟩
    intro a ha b hbm
    simp at hbm
    subst hbm
    have := hb a ha
    omega
  · unfold adminCount at hc ⊢
    rw [List.countP_append, hc]
    simp [hname]

theorem eq_of_mem_pairwise_ne {l : List User}
    (hp : l.Pairwise (fun a b => a.id ≠ b.id))
    {u v : User} (hu : u ∈ l) (hv : v ∈ l) (h : u.id = v.id) : u = v := by
  induction l with
  | nil => cases hu
  | cons x xs ih =>
    rcases List.pairwise_cons.mp hp with ⟨hx, hxs⟩
    rcases List.mem_cons.mp hu with rfl | hu2
    · rcases List.mem_cons.mp hv with rfl | hv2
      · rfl
      · exact absurd h (hx v hv2)
    · rcases List.mem_cons.mp hv with rfl | hv2
      · exact absurd h.symm (hx u hu2)
      · exact ih hxs hu2 hv2

theorem countP_filter_of_imp {α : Type} (p q : α → Bool) :
    ∀ l : List α, (∀ a ∈ l, p a = true → q a = true) →
      (l.filter q).countP p = l.countP p := by
  intro l
  induction l with
  | nil => intro _; rfl
  | cons x xs ih =>
    intro h
    have hxs : ∀ a ∈ xs, p a = true → q a = true :=
      fun a ha => h a (List.mem_cons_of_mem _ ha)
    cases hq : q x with
    | true => simp [List.filter_cons, hq, List.countP_cons, ih hxs]
    | false =>
      have hpx : p x = false := by
        cases hpc : p x with
        | false => rfl
        | true => exact absurd (h x (List.mem_cons_self _ _) hpc) (by simp [hq])
      simp [List.filter_cons, hq, hpx, List.countP_cons, ih hxs]

theorem usersOK_filter_out (l : List User) (n t : Nat) (u : User)
    (h : usersOK l n)
    (hfind : l.find? (fun v => v.id == t) = some u)
    (hname : u.username ≠ "admin") :
    usersOK (l.filter (fun v => !(v.id == t))) n := by
  obtain ⟨hb, hp, hc⟩ := h
  have hut : u.id = t := by
    have hx := List.find?_some hfind
    simpa using hx
  have humem : u ∈ l := List.mem_of_find?_eq_some hfind
  refine ⟨?_, ?_, ?_⟩
  · intro v hv
    exact hb v (List.mem_of_mem_filter hv)
  · exact hp.sublist (List.filter_sublist l)
  · unfold adminCount at hc ⊢
    rw [countP_filter_of_imp _ _ l ?imp]
    · exact hc
    case imp =>
      intro a ha hadm
      have haname : a.username = "admin" := by simpa using hadm
      by_contra hk
      have hat : a.id = t := by
        simp at hk
        exact hk
      have : a = u := eq_of_mem_pairwise_ne hp ha humem (hat.trans hut.symm)
      exact hname (this ▸ haname)


theorem loginHandler_usersOK (compare : String → String → Bool)
    (pepper : String) (auditOk : Bool) (now : Nat) (st : Store)
    (username password : String) (h : usersOK st.users st.nextUserId) :
    usersOK (loginHandler compare pepper auditOk now st username password).2.users
      (loginHandler compare pepper auditOk now st username password).2.nextUserId := by
  simp only [loginHandler]
  split
  · exact h
  · split
    · exact h
    · split
      · exact h
      · split
        · exact h
        · split
          · simp only [insertLog]
            exact usersOK_map _ (fun u => by split <;> rfl)
              (fun u => by split <;> rfl) _ _ h
          · exact usersOK_map _ (fun u => by split <;> rfl)
              (fun u => by split <;> rfl) _ _ h


theorem admin_exists_of_usersOK (l : List User) (n : Nat) (h : usersOK l n) :
    ∃ a ∈ l, a.username = "admin" := by
  obtain ⟨-, -, hc⟩ := h
  have hpos : 0 < l.countP (fun u => u.username == "admin") := by
    unfold adminCount at hc
    omega
  rcases List.countP_pos_iff.mp hpos with ⟨a, ha, hadm⟩
  exact ⟨a, ha, by simpa using hadm⟩

theorem registerHandler_usersOK (hash : String → String)
    (isEmail : String → Bool) (pepper : String) (now : Nat) (st : Store)
    (username password email role : String)
    (h : usersOK st.users st.nextUserId) :
    usersOK (registerHandler hash isEmail pepper now st username password email role).2.users
      (registerHandler hash isEmail pepper now st username password email role).2.nextUserId := by
  simp only [registerHandler]
  split
  · exact h
  · split
    · exact h
    · rename_i hnone
      have hfresh : ∀ v ∈ st.users,
          ¬ ((v.username == jsTrim username || v.email == email) = true) :=
        List.find?_eq_none.mp hnone
      rcases admin_exists_of_usersOK _ _ h with ⟨a, ha, haname⟩
      have hnm : jsTrim username ≠ "admin" := by
        intro he
        exact hfresh a ha (by simp [haname, he])
      exact usersOK_append _ _ _ h rfl hnm

theorem acceptInvitationHandler_usersOK (hash : String → String)
    (pepper : String) (now : Nat) (st : Store) (token password : String)
    (h : usersOK st.users st.nextUserId) :
    usersOK (acceptInvitationHandler hash pepper now st token password).2.users
      (acceptInvitationHandler hash pepper now st token password).2.nextUserId := by
  simp only [acceptInvitationHandler]
  split
  · exact h
  · split
    · exact h
    · rename_i inv heq
      split
      · exact h
      · split
        · exact h
        · rename_i hnoconf
          have hfalse : (st.users.any fun u =>
              u.username == inv.username || u.email == inv.email) = false := by
            simpa using hnoconf
          have hfresh : ∀ v ∈ st.users,
              ¬ ((v.username == inv.username || v.email == inv.email) = true) :=
            List.any_eq_false.mp hfalse
          rcases admin_exists_of_usersOK _ _ h with ⟨a, ha, haname⟩
          have hnm : inv.username ≠ "admin" := by
            intro he
            exact hfresh a ha (by simp [haname, he])
          simp only [insertLog]
          exact usersOK_append _ _ _ h rfl hnm

theorem decideHandler_usersOK (now : Nat) (st : Store) (id : Nat)
    (status : String) (reviewerId : Nat) (h : usersOK st.users st.nextUserId) :
    usersOK (decideHandler now st id status reviewerId).2.users
      (decideHandler now st id status reviewerId).2.nextUserId := by
  simp only [decideHandler]
  split
  · exact h
  · split
    · rename_i reviewer request hrev hreq
      simp only [insertLog]
      split
      · split
        · exact usersOK_map _ (fun u => by split <;> rfl)
            (fun u => by split <;> rfl) _ _ h
        · exact h
      · exact h
    · exact h

theorem deleteUserHandler_usersOK (now : Nat) (st : Store) (id adminId : Nat)
    (h : usersOK st.users st.nextUserId) :
    usersOK (deleteUserHandler now st id adminId).2.users
      (deleteUserHandler now st id adminId).2.nextUserId := by
  simp only [deleteUserHandler]
  split
  · exact h
  · split
    · exact h
    · split
      · exact h
      · rename_i user hfind
        split
        · exact h
        · split
          · exact h
          · rename_i hadm hself
            simp only [insertLog]
            exact usersOK_filter_out _ _ _ _ h hfind hadm

theorem inviteUserHandler_usersOK (isEmail : String → Bool) (token : String)
    (now : Nat) (st : Store) (username email role : String) (adminId : Nat)
    (h : usersOK st.users st.nextUserId) :
    usersOK (inviteUserHandler isEmail token now st username email role adminId).2.users
      (inviteUserHandler isEmail token now st username email role adminId).2.nextUserId := by
  simp only [inviteUserHandler]
  split
  · exact h
  · split
    · exact h
    · split
      · exact h
      · split
        · exact h
        · simp only [insertLog]
          exact h

theorem deleteInvitationHandler_usersOK (now : Nat) (st : Store)
    (id adminId : Nat) (h : usersOK st.users st.nextUserId) :
    usersOK (deleteInvitationHandler now st id adminId).2.users
      (deleteInvitationHandler now st id adminId).2.nextUserId := by
  simp only [deleteInvitationHandler]
  split
  · exact h
  · split
    · exact h
    · split
      · exact h
      · simp only [insertLog]
        exact h

theorem logActionHandler_usersOK (now : Nat) (st : Store) (userId : Nat)
    (username action resource : String) (details : Option String)
    (h : usersOK st.users st.nextUserId) :
    usersOK (logActionHandler now st userId username action resource details).2.users
      (logActionHandler now st userId username action resource details).2.nextUserId := by
  simp only [logActionHandler, insertLog]
  exact h


theorem step_usersOK {st st2 : Store} (h : Step st st2)
    (hOK : usersOK st.users st.nextUserId) :
    usersOK st2.users st2.nextUserId := by
  cases h with
  | login compare pepper auditOk now username password st =>
    exact loginHandler_usersOK compare pepper auditOk now st username password hOK
  | register hash isEmail pepper now username password email role st =>
    exact registerHandler_usersOK hash isEmail pepper now st username password
      email role hOK
  | invite isEmail token now username email role adminId st =>
    exact inviteUserHandler_usersOK isEmail token now st username email role
      adminId hOK
  | accept hash pepper now token password st =>
    exact acceptInvitationHandler_usersOK hash pepper now st token password hOK
  | deleteInvitation now id adminId st =>
    exact deleteInvitationHandler_usersOK now st id adminId hOK
  | decide now id status reviewerId st =>
    exact decideHandler_usersOK now st id status reviewerId hOK
  | logAction now userId username action resource details st =>
    exact logActionHandler_usersOK now st userId username action resource
      details hOK
  | deleteUser now id adminId st =>
    exact deleteUserHandler_usersOK now st id adminId hOK

theorem initStore_usersOK (hash : String → String) (pepper : String)
    (bootNow : Nat) :
    usersOK (initStore hash pepper bootNow).users
      (initStore hash pepper bootNow).nextUserId := by
  refine ⟨?_, ?_, ?_⟩
  · intro u hu
    simp [initStore] at hu
    subst hu
    simp [initStore]
  · simp [initStore]
  · simp [initStore, adminCount]

theorem reachable_usersOK (hash : String → String) (pepper : String)
    (bootNow : Nat) (st : Store)
    (h : Reachable hash pepper bootNow st) :
    usersOK st.users st.nextUserId := by
  unfold Reachable at h
  induction h with
  | refl => exact initStore_usersOK hash pepper bootNow
  | tail hsteps hstep ih => exact step_usersOK hstep ih

/-- C9.  In every reachable store there is exactly one account named
"admin"; no delete-user call can change that count; and a delete-user call
whose target id equals the calling admin's own id answers 403 Forbidden
and leaves the store untouched. -/
theorem admin_account_invariant (hash : String → String) (pepper : String)
    (bootNow : Nat) (st : Store) (h : Reachable hash pepper bootNow st) :
    adminCount st.users = 1 ∧
    (∀ now id adminId,
      adminCount (deleteUserHandler now st id adminId).2.users = 1) ∧
    (∀ now adminId a, st.users.find? (fun u => u.id == adminId) = some a →
      a.role = "admin" →
      (deleteUserHandler now st adminId adminId).1.status = 403 ∧
      (deleteUserHandler now st adminId adminId).2 = st) := by
  have hOK := reachable_usersOK hash pepper bootNow st h
  refine ⟨hOK.2.2, ?_, ?_⟩
  · intro now id adminId
    exact (step_usersOK (Step.deleteUser now id adminId st) hOK).2.2
  · intro now adminId a hfind harole
    have hne : ¬ a.role ≠ "admin" := by simp [harole]
    by_cases hn : a.username = "admin"
    · simp only [deleteUserHandler, hfind]
      rw [if_neg hne]
      rw [if_pos hn]
      exact ⟨rfl, rfl⟩
    · simp only [deleteUserHandler, hfind]
      rw [if_neg hne]
      rw [if_neg hn]
      simp


/-- C9 witness: the bootstrap store is reachable, holds exactly one
"admin", and the admin self-delete is refused with 403. -/
theorem admin_account_invariant_witness :
    adminCount (initStore exHash "" 0).users = 1 ∧
    (deleteUserHandler 3 (initStore exHash "" 0) 1 1).1.status = 403 ∧
    (deleteUserHandler 3 (initStore exHash "" 0) 1 1).2 = initStore exHash "" 0 :=
  have h := admin_account_invariant exHash "" 0 (initStore exHash "" 0)
    Relation.ReflTransGen.refl
  have hself := h.2.2 3 1
    { id := 1, username := "admin", password := "h:admin",
      email := "admin@example.com", role := "admin", isApproved := true,
      createdAt := 0, lastLogin := none, invitedBy := none }
    (by decide) (by decide)
  ⟨h.1, hself.1, hself.2⟩

end ICP
